import Mathlib

/-!
Shallow embedding of `src/reader.rs` of the grimarz-rust repository: an ARZ
(Grim Dawn database) index reader.  The byte stream is modelled as a
`List Nat` of bytes; the reader functions consume bytes from the front, and
seeks are modelled by `List.drop` on the original byte list (each of
`read_header`, `read_strings`, `read_entries` seeks once at its start and
then reads strictly sequentially, exactly as in the source).  Rust `Result`
is modelled by `PResult`, which in addition to the two `Result` constructors
has a `panicked` constructor modelling a Rust panic (the out-of-bounds slice
indexing `strings[path_index]` is the one place the source can panic).
-/

namespace Grimarz

/-- Error type of `reader.rs`: `UnsupportedFormat`, `InvalidStringIndex(usize)`,
and `Io(io::Error)` (the wrapped `io::Error` payload is abstracted away; the
claims only distinguish the three kinds). -/
inductive Error where
  | UnsupportedFormat : Error
  | InvalidStringIndex : Nat → Error
  | Io : Error
  deriving DecidableEq

/-- Outcome of running a fallible piece of the reader: a value, a typed
`Error`, or a Rust panic (process abort). -/
inductive PResult (α : Type) where
  | ok : α → PResult α
  | error : Error → PResult α
  | panicked : PResult α
  deriving DecidableEq

def PResult.bind {α β : Type} : PResult α → (α → PResult β) → PResult β
  | .ok a, f => f a
  | .error e, _ => .error e
  | .panicked, _ => .panicked

def PResult.map {α β : Type} (f : α → β) : PResult α → PResult β
  | .ok a => .ok (f a)
  | .error e => .error e
  | .panicked => .panicked

/-- Little-endian value of a byte list (byte 0 is least significant). -/
def leNat (bs : List Nat) : Nat := bs.foldr (fun b acc => b + 256 * acc) 0

/-- `read_exact` into a buffer of `n` bytes: returns the `n` bytes read and
the remaining stream, or the I/O error a short read surfaces as. -/
def readBytes (n : Nat) (s : List Nat) : PResult (List Nat × List Nat) :=
  if n ≤ s.length then .ok (s.take n, s.drop n) else .error .Io

/-- `read_u16::<LittleEndian>`. -/
def readU16 (s : List Nat) : PResult (Nat × List Nat) :=
  (readBytes 2 s).map fun p => (leNat p.1, p.2)

/-- `read_u32::<LittleEndian>`. -/
def readU32 (s : List Nat) : PResult (Nat × List Nat) :=
  (readBytes 4 s).map fun p => (leNat p.1, p.2)

/-- `read_u64::<LittleEndian>`. -/
def readU64 (s : List Nat) : PResult (Nat × List Nat) :=
  (readBytes 8 s).map fun p => (leNat p.1, p.2)

/-- Fuel-driven body of `utf8_lossy`.  Every step consumes at least one byte
and exactly one unit of fuel, so fuel equal to the list length always
suffices and the fuel-exhausted branch is unreachable from `utf8_lossy`. -/
def utf8_go : Nat → List Nat → List Nat
  | _, [] => []
  | 0, _ :: _ => []
  | fuel + 1, b :: rest =>
    if b < 0x80 then
      b :: utf8_go fuel rest
    else if 0xC2 ≤ b ∧ b ≤ 0xDF then
      match rest with
      | [] => [0xFFFD]
      | c1 :: r1 =>
        if 0x80 ≤ c1 ∧ c1 ≤ 0xBF then
          ((b - 0xC0) * 0x40 + (c1 - 0x80)) :: utf8_go fuel r1
        else 0xFFFD :: utf8_go fuel (c1 :: r1)
    else if 0xE0 ≤ b ∧ b ≤ 0xEF then
      match rest with
      | [] => [0xFFFD]
      | c1 :: r1 =>
        if (if b = 0xE0 then 0xA0 else 0x80) ≤ c1 ∧ c1 ≤ (if b = 0xED then 0x9F else 0xBF) then
          match r1 with
          | [] => [0xFFFD]
          | c2 :: r2 =>
            if 0x80 ≤ c2 ∧ c2 ≤ 0xBF then
              ((b - 0xE0) * 0x1000 + (c1 - 0x80) * 0x40 + (c2 - 0x80)) :: utf8_go fuel r2
            else 0xFFFD :: utf8_go fuel (c2 :: r2)
        else 0xFFFD :: utf8_go fuel (c1 :: r1)
    else if 0xF0 ≤ b ∧ b ≤ 0xF4 then
      match rest with
      | [] => [0xFFFD]
      | c1 :: r1 =>
        if (if b = 0xF0 then 0x90 else 0x80) ≤ c1 ∧ c1 ≤ (if b = 0xF4 then 0x8F else 0xBF) then
          match r1 with
          | [] => [0xFFFD]
          | c2 :: r2 =>
            if 0x80 ≤ c2 ∧ c2 ≤ 0xBF then
              match r2 with
              | [] => [0xFFFD]
              | c3 :: r3 =>
                if 0x80 ≤ c3 ∧ c3 ≤ 0xBF then
                  ((b - 0xF0) * 0x40000 + (c1 - 0x80) * 0x1000 + (c2 - 0x80) * 0x40 + (c3 - 0x80))
                    :: utf8_go fuel r3
                else 0xFFFD :: utf8_go fuel (c2 :: r2)
            else 0xFFFD :: utf8_go fuel (c1 :: r1)
        else 0xFFFD :: utf8_go fuel (c1 :: r1)
    else 0xFFFD :: utf8_go fuel rest

/-- `String::from_utf8_lossy`: decode a byte list to Unicode scalar values,
replacing each maximal invalid subpart by U+FFFD (the WHATWG UTF-8 decoder
with replacement, which is what Rust implements). -/
def utf8_lossy (bs : List Nat) : List Nat := utf8_go bs.length bs

/-- The `Header` struct of `reader.rs`. -/
structure Header where
  id : Nat
  version : Nat
  record_table_start : Nat
  record_table_size : Nat
  record_table_entry_count : Nat
  string_table_start : Nat
  string_table_size : Nat
  deriving DecidableEq

/-- The `Entry` struct of `reader.rs`; `path` and `record_type` hold the
Unicode scalar values of the decoded strings. -/
structure Entry where
  path : List Nat
  record_type : List Nat
  offset : Nat
  compressed_size : Nat
  uncompressed_size : Nat
  file_time : Nat
  deriving DecidableEq

/-- `Reader::read_header`: `read_exact` a 24-byte buffer, then cursor-decode
id, version (validated against 2 and 3), and the five u32 fields. -/
def read_header (s : List Nat) : PResult (Header × List Nat) :=
  (readBytes 24 s).bind fun hbr =>
  (readU16 hbr.1).bind fun idp =>
  (readU16 idp.2).bind fun verp =>
  if idp.1 ≠ 2 ∨ verp.1 ≠ 3 then .error .UnsupportedFormat
  else
  (readU32 verp.2).bind fun rtsp =>
  (readU32 rtsp.2).bind fun rtzp =>
  (readU32 rtzp.2).bind fun rtcp =>
  (readU32 rtcp.2).bind fun stsp =>
  (readU32 stsp.2).bind fun stzp =>
  .ok ({ id := idp.1, version := verp.1,
         record_table_start := rtsp.1, record_table_size := rtzp.1,
         record_table_entry_count := rtcp.1,
         string_table_start := stsp.1, string_table_size := stzp.1 }, hbr.2)

/-- One iteration of the `read_strings` loop: u32 byte length, then that many
raw bytes, decoded lossily. -/
def read_string_entry (s : List Nat) : PResult (List Nat × List Nat) :=
  (readU32 s).bind fun szp =>
  (readBytes szp.1 szp.2).bind fun bsp =>
  .ok (utf8_lossy bsp.1, bsp.2)

/-- A counted sequential-decode loop: run `step` `n` times, collecting the
results in order (both table-reading loops of `reader.rs` have this shape). -/
def readLoop {α : Type} (step : List Nat → PResult (α × List Nat)) :
    Nat → List Nat → PResult (List α × List Nat)
  | 0, s => .ok ([], s)
  | n + 1, s =>
    (step s).bind fun p =>
    (readLoop step n p.2).bind fun q =>
    .ok (p.1 :: q.1, q.2)

/-- Body of `Reader::read_strings` after the seek: u32 count, then that many
string entries. -/
def read_strings_loop : Nat → List Nat → PResult (List (List Nat) × List Nat) :=
  readLoop read_string_entry

/-- `Reader::read_strings`: seek to `string_table_start`, read the u32 count,
then read that many length-prefixed strings. -/
def read_strings (bytes : List Nat) (header : Header) :
    PResult (List (List Nat) × List Nat) :=
  let s := bytes.drop header.string_table_start
  (readU32 s).bind fun cnp =>
  read_strings_loop cnp.1 cnp.2

/-- One iteration of the `read_entries` loop.  The source checks
`path_index > strings.len()` (strict greater-than) and then indexes
`strings[path_index]`; hence `path_index = strings.len()` passes the check
and the slice indexing panics, which the `none` branch models. -/
def read_entry (strings : List (List Nat)) (s : List Nat) :
    PResult (Entry × List Nat) :=
  (readU32 s).bind fun pip =>
  if strings.length < pip.1 then .error (.InvalidStringIndex pip.1)
  else
    match strings[pip.1]? with
    | none => .panicked
    | some path =>
      (readU32 pip.2).bind fun rtlp =>
      (readBytes rtlp.1 rtlp.2).bind fun rtbp =>
      (readU32 rtbp.2).bind fun offp =>
      (readU32 offp.2).bind fun cszp =>
      (readU32 cszp.2).bind fun uszp =>
      (readU64 uszp.2).bind fun ftp =>
      .ok ({ path := path, record_type := utf8_lossy rtbp.1,
             offset := offp.1, compressed_size := cszp.1,
             uncompressed_size := uszp.1, file_time := ftp.1 }, ftp.2)

/-- Body of `Reader::read_entries` after the seek. -/
def read_entries_loop (strings : List (List Nat)) :
    Nat → List Nat → PResult (List Entry × List Nat) :=
  readLoop (read_entry strings)

/-- `Reader::read_entries`: seek to `record_table_start` and decode exactly
`record_table_entry_count` records. -/
def read_entries (bytes : List Nat) (header : Header)
    (strings : List (List Nat)) : PResult (List Entry × List Nat) :=
  read_entries_loop strings header.record_table_entry_count
    (bytes.drop header.record_table_start)

/-- `Reader::parse_header`: seek to 0, read the header, the string table and
the record table in sequence, returning the record list. -/
def parse_header (bytes : List Nat) : PResult (List Entry) :=
  (read_header bytes).bind fun hp =>
  (read_strings bytes hp.1).bind fun sp =>
  (read_entries bytes hp.1 sp.1).bind fun ep =>
  .ok ep.1

/-- The `Reader` struct, minus the owned byte stream: what `Reader::new`
exposes to callers is the decoded entry list. -/
structure Reader where
  entries : List Entry
  deriving DecidableEq

/-- `Reader::new`: run the full three-stage decode; on success the resulting
`Reader` holds the complete entry list. -/
def Reader.new (bytes : List Nat) : PResult Reader :=
  (parse_header bytes).map fun entries => { entries }

/-- The header a stream of at least 24 bytes encodes, field by field as the
little-endian slices of the spec's layout table. -/
def headerAt (s : List Nat) : Header :=
  { id := leNat (s.take 2), version := leNat ((s.drop 2).take 2),
    record_table_start := leNat ((s.drop 4).take 4),
    record_table_size := leNat ((s.drop 8).take 4),
    record_table_entry_count := leNat ((s.drop 12).take 4),
    string_table_start := leNat ((s.drop 16).take 4),
    string_table_size := leNat ((s.drop 20).take 4) }

/-- A stream whose header is valid with record count 0 and whose
record-table offset (1667457891) lies far beyond the end of the stream. -/
def zeroCount_bytes : List Nat :=
  [2, 0, 3, 0, 99, 99, 99, 99, 0, 0, 0, 0, 0, 0, 0, 0, 24, 0, 0, 0, 4, 0, 0, 0]
  ++ [0, 0, 0, 0]

/-- The header `zeroCount_bytes` encodes. -/
def zeroCount_header : Header :=
  { id := 2, version := 3, record_table_start := 1667457891,
    record_table_size := 0, record_table_entry_count := 0,
    string_table_start := 24, string_table_size := 4 }

/-- A valid stream with record count 0, record table at 24, string table at
28 (both past the header), and junk in the record_table_size bytes. -/
def c9okA_bytes : List Nat :=
  [2, 0, 3, 0, 24, 0, 0, 0, 9, 9, 9, 9, 0, 0, 0, 0, 28, 0, 0, 0, 0, 0, 0, 0]
  ++ [0, 0, 0, 0] ++ [0, 0, 0, 0]

/-- `c9okA_bytes` with different junk in the record_table_size bytes. -/
def c9okB_bytes : List Nat :=
  [2, 0, 3, 0, 24, 0, 0, 0, 88, 88, 88, 88, 0, 0, 0, 0, 28, 0, 0, 0, 0, 0, 0, 0]
  ++ [0, 0, 0, 0] ++ [0, 0, 0, 0]

/-- The header `c9okA_bytes` encodes (record_table_size is 9 \* 16843009). -/
def c9okA_header : Header :=
  { id := 2, version := 3, record_table_start := 24, record_table_size := 151587081,
    record_table_entry_count := 0, string_table_start := 28, string_table_size := 0 }

example : utf8_lossy [104, 101, 108, 108, 111] = [104, 101, 108, 108, 111] := by decide
example : utf8_lossy [0xC3, 0xA9] = [0xE9] := by decide
example : utf8_lossy [0xC3] = [0xFFFD] := by decide
example : utf8_lossy [0xE0, 0x41] = [0xFFFD, 0x41] := by decide

/-- Scenario A of the spec: id=2, version=3, one pooled string "hello", one
record (path_index 0, type "TAG", offset 10, sizes 5 and 8, time 123456789).
String table at offset 24 (13 bytes), record table at offset 37 (31 bytes). -/
def scenarioA_bytes : List Nat :=
  [2, 0, 3, 0, 37, 0, 0, 0, 31, 0, 0, 0, 1, 0, 0, 0, 24, 0, 0, 0, 13, 0, 0, 0]
  ++ [1, 0, 0, 0, 5, 0, 0, 0, 104, 101, 108, 108, 111]
  ++ [0, 0, 0, 0, 3, 0, 0, 0, 84, 65, 71,
      10, 0, 0, 0, 5, 0, 0, 0, 8, 0, 0, 0, 21, 205, 91, 7, 0, 0, 0, 0]

/-- The header scenario A's bytes encode. -/
def scenarioA_header : Header :=
  { id := 2, version := 3, record_table_start := 37, record_table_size := 31,
    record_table_entry_count := 1, string_table_start := 24, string_table_size := 13 }

/-- The one record scenario A's bytes encode ("hello", "TAG" as scalar values). -/
def scenarioA_entry : Entry :=
  { path := [104, 101, 108, 108, 111], record_type := [84, 65, 71],
    offset := 10, compressed_size := 5, uncompressed_size := 8, file_time := 123456789 }

/-- Scenario C of the spec: empty string pool (N = 0) and one record whose
encoded path index is 0; the boundary case of the bounds check. -/
def scenarioC_bytes : List Nat :=
  [2, 0, 3, 0, 28, 0, 0, 0, 0, 0, 0, 0, 1, 0, 0, 0, 24, 0, 0, 0, 0, 0, 0, 0]
  ++ [0, 0, 0, 0] ++ [0, 0, 0, 0]

/-- Scenario C variant: empty string pool and one record whose encoded path
index is 1, strictly greater than the pool length. -/
def scenarioC1_bytes : List Nat :=
  [2, 0, 3, 0, 28, 0, 0, 0, 0, 0, 0, 0, 1, 0, 0, 0, 24, 0, 0, 0, 0, 0, 0, 0]
  ++ [0, 0, 0, 0] ++ [1, 0, 0, 0]

/-- Scenario B of the spec: bad magic (id = 9), rest of the header arbitrary. -/
def scenarioB_bytes : List Nat :=
  [9, 0, 3, 0] ++ List.replicate 20 0

/-- The all-zero record of 28 zero bytes (path index 0, empty type, zero
fields), as decoded against the pool containing one empty string. -/
def zero_entry : Entry :=
  { path := [], record_type := [], offset := 0, compressed_size := 0,
    uncompressed_size := 0, file_time := 0 }

/-- Scenario D of the spec: header claims record_table_entry_count = 5, pool
has one (empty) string, but the stream ends after 2 complete records.
String table at 24 (8 bytes), record table at 32 (2 × 28 zero bytes). -/
def scenarioD_bytes : List Nat :=
  [2, 0, 3, 0, 32, 0, 0, 0, 0, 0, 0, 0, 5, 0, 0, 0, 24, 0, 0, 0, 8, 0, 0, 0]
  ++ [1, 0, 0, 0, 0, 0, 0, 0]
  ++ List.replicate 56 0

/-- The header scenario D's bytes encode. -/
def scenarioD_header : Header :=
  { id := 2, version := 3, record_table_start := 32, record_table_size := 0,
    record_table_entry_count := 5, string_table_start := 24, string_table_size := 8 }

/-- Scenario D variant: the header still claims 5 records and only 2 complete
records are present, but the truncated stream leaves a 4-byte fragment
[7, 0, 0, 0] whose decoded path index 7 is out of range for the one-string
pool, so decoding record 3 fails the bounds check before any short read. -/
def scenarioD2_bytes : List Nat :=
  [2, 0, 3, 0, 32, 0, 0, 0, 0, 0, 0, 0, 5, 0, 0, 0, 24, 0, 0, 0, 8, 0, 0, 0]
  ++ [1, 0, 0, 0, 0, 0, 0, 0]
  ++ List.replicate 56 0 ++ [7, 0, 0, 0]

/-- Scenario D variant whose leftover fragment [1, 0, 0, 0] decodes path
index 1, exactly the pool length: the boundary-index panic. -/
def scenarioD3_bytes : List Nat :=
  [2, 0, 3, 0, 32, 0, 0, 0, 0, 0, 0, 0, 5, 0, 0, 0, 24, 0, 0, 0, 8, 0, 0, 0]
  ++ [1, 0, 0, 0, 0, 0, 0, 0]
  ++ List.replicate 56 0 ++ [1, 0, 0, 0]

example : parse_header scenarioA_bytes = .ok [scenarioA_entry] := by decide
example : parse_header scenarioC_bytes = .panicked := by decide
example : parse_header scenarioC1_bytes = .error (.InvalidStringIndex 1) := by decide
example : parse_header scenarioB_bytes = .error .UnsupportedFormat := by decide
example : parse_header scenarioD_bytes = .error .Io := by decide

/-- First stream of the pair refuting claim C9: the header's string-table
start offset is 8, so the string table is read out of the header's own
record_table_size bytes (offsets 8-11).  Here they decode to count 0; the
record count (offsets 12-15) is 0, so parsing yields zero records. -/
def c9denA_bytes : List Nat :=
  [2, 0, 3, 0, 24, 0, 0, 0, 0, 0, 0, 0, 0, 0, 0, 0, 8, 0, 0, 0, 0, 0, 0, 0]

/-- Second stream of the refuting pair: identical to `c9denA_bytes` except in
the record_table_size bytes (offsets 8-11), which now decode to a huge
string count, driving the string-table loop off the end of the stream. -/
def c9denB_bytes : List Nat :=
  [2, 0, 3, 0, 24, 0, 0, 0, 255, 255, 255, 255, 0, 0, 0, 0, 8, 0, 0, 0, 0, 0, 0, 0]

example : parse_header c9denA_bytes = .ok [] := by decide
example : parse_header c9denB_bytes = .error .Io := by decide

theorem PResult.bind_eq_ok {α β : Type} {x : PResult α} {f : α → PResult β} {b : β} :
    x.bind f = .ok b ↔ ∃ a, x = .ok a ∧ f a = .ok b := by
  cases x <;> simp [PResult.bind]

theorem PResult.bind_eq_error {α β : Type} {x : PResult α} {f : α → PResult β} {e : Error} :
    x.bind f = .error e ↔ x = .error e ∨ ∃ a, x = .ok a ∧ f a = .error e := by
  cases x <;> simp [PResult.bind]

theorem PResult.bind_eq_panicked {α β : Type} {x : PResult α} {f : α → PResult β} :
    x.bind f = .panicked ↔ x = .panicked ∨ ∃ a, x = .ok a ∧ f a = .panicked := by
  cases x <;> simp [PResult.bind]

theorem PResult.map_eq_error {α β : Type} {f : α → β} {x : PResult α} {e : Error} :
    x.map f = .error e ↔ x = .error e := by
  cases x <;> simp [PResult.map]

theorem PResult.map_eq_panicked {α β : Type} {f : α → β} {x : PResult α} :
    x.map f = .panicked ↔ x = .panicked := by
  cases x <;> simp [PResult.map]

theorem readBytes_ok {n : Nat} {s : List Nat} (h : n ≤ s.length) :
    readBytes n s = .ok (s.take n, s.drop n) := by
  unfold readBytes
  rw [if_pos h]

theorem readBytes_io {n : Nat} {s : List Nat} (h : s.length < n) :
    readBytes n s = .error .Io := by
  unfold readBytes
  rw [if_neg (by omega)]

theorem readBytes_error {n : Nat} {s : List Nat} {e : Error}
    (h : readBytes n s = .error e) : e = .Io := by
  unfold readBytes at h
  split at h <;> simp_all

theorem readBytes_ne_panicked (n : Nat) (s : List Nat) : readBytes n s ≠ .panicked := by
  unfold readBytes
  split <;> simp

theorem readU16_ok {s : List Nat} (h : 2 ≤ s.length) :
    readU16 s = .ok (leNat (s.take 2), s.drop 2) := by
  rw [readU16, readBytes_ok h]
  rfl

theorem readU32_ok {s : List Nat} (h : 4 ≤ s.length) :
    readU32 s = .ok (leNat (s.take 4), s.drop 4) := by
  rw [readU32, readBytes_ok h]
  rfl

theorem readU64_ok {s : List Nat} (h : 8 ≤ s.length) :
    readU64 s = .ok (leNat (s.take 8), s.drop 8) := by
  rw [readU64, readBytes_ok h]
  rfl

theorem readU32_error {s : List Nat} {e : Error} (h : readU32 s = .error e) : e = .Io := by
  rw [readU32, PResult.map_eq_error] at h
  exact readBytes_error h

theorem readU32_ne_panicked (s : List Nat) : readU32 s ≠ .panicked := by
  rw [readU32, Ne, PResult.map_eq_panicked]
  exact readBytes_ne_panicked 4 s

theorem readU64_error {s : List Nat} {e : Error} (h : readU64 s = .error e) : e = .Io := by
  rw [readU64, PResult.map_eq_error] at h
  exact readBytes_error h

theorem readU64_ne_panicked (s : List Nat) : readU64 s ≠ .panicked := by
  rw [readU64, Ne, PResult.map_eq_panicked]
  exact readBytes_ne_panicked 8 s

theorem slice_take {s : List Nat} {lo k m : Nat} (h : lo + k ≤ m) :
    ((s.take m).drop lo).take k = (s.drop lo).take k := by
  rw [List.drop_take, List.take_take, Nat.min_eq_left (by omega)]

theorem readLoop_length {α : Type} {step : List Nat → PResult (α × List Nat)}
    {n : Nat} {s s' : List Nat} {es : List α}
    (h : readLoop step n s = .ok (es, s')) : es.length = n := by
  induction n generalizing s es s' with
  | zero =>
    simp only [readLoop, PResult.ok.injEq, Prod.mk.injEq] at h
    rw [← h.1]
    rfl
  | succ n ih =>
    simp only [readLoop] at h
    rcases PResult.bind_eq_ok.mp h with ⟨p, hp, h2⟩
    rcases PResult.bind_eq_ok.mp h2 with ⟨q, hq, h3⟩
    simp only [PResult.ok.injEq, Prod.mk.injEq] at h3
    rw [← h3.1, List.length_cons, ih hq]

theorem readLoop_add {α : Type} (step : List Nat → PResult (α × List Nat))
    (m n : Nat) (s : List Nat) :
    readLoop step (m + n) s =
      (readLoop step m s).bind fun p =>
      (readLoop step n p.2).bind fun q =>
      .ok (p.1 ++ q.1, q.2) := by
  induction m generalizing s with
  | zero =>
    rw [Nat.zero_add]
    simp only [readLoop, PResult.bind, List.nil_append]
    generalize readLoop step n s = x
    cases x <;> rfl
  | succ m ih =>
    rw [Nat.succ_add]
    simp only [readLoop]
    cases step s with
    | error e => simp [PResult.bind]
    | panicked => simp [PResult.bind]
    | ok p =>
      simp only [PResult.bind]
      rw [ih]
      cases readLoop step m p.2 with
      | error e => simp [PResult.bind]
      | panicked => simp [PResult.bind]
      | ok p2 =>
        simp only [PResult.bind]
        cases readLoop step n p2.2 with
        | error e => simp [PResult.bind]
        | panicked => simp [PResult.bind]
        | ok q => simp [PResult.bind]

theorem readLoop_split {α : Type} {step : List Nat → PResult (α × List Nat)}
    {m n : Nat} {s s' : List Nat} {es : List α}
    (h : readLoop step (m + n) s = .ok (es, s')) :
    ∃ es1 sm es2, readLoop step m s = .ok (es1, sm) ∧
      readLoop step n sm = .ok (es2, s') ∧ es = es1 ++ es2 := by
  rw [readLoop_add] at h
  rcases PResult.bind_eq_ok.mp h with ⟨p, hp, h2⟩
  rcases PResult.bind_eq_ok.mp h2 with ⟨q, hq, h3⟩
  simp only [PResult.ok.injEq, Prod.mk.injEq] at h3
  exact ⟨p.1, p.2, q.1, hp, by rw [← h3.2]; exact hq, h3.1.symm⟩

theorem readLoop_error_later {α : Type} {step : List Nat → PResult (α × List Nat)}
    {m n : Nat} {s sm : List Nat} {es1 : List α} {e : Error}
    (h1 : readLoop step m s = .ok (es1, sm)) (h2 : readLoop step n sm = .error e) :
    readLoop step (m + n) s = .error e := by
  rw [readLoop_add, h1]
  simp only [PResult.bind]
  rw [h2]

theorem readLoop_mem {α : Type} {step : List Nat → PResult (α × List Nat)}
    {P : α → Prop} (hstep : ∀ s a s', step s = .ok (a, s') → P a) :
    ∀ {n : Nat} {s s' : List Nat} {es : List α},
      readLoop step n s = .ok (es, s') → ∀ a ∈ es, P a := by
  intro n
  induction n with
  | zero =>
    intro s s' es h a ha
    simp only [readLoop, PResult.ok.injEq, Prod.mk.injEq] at h
    rw [← h.1] at ha
    simp at ha
  | succ n ih =>
    intro s s' es h a ha
    simp only [readLoop] at h
    rcases PResult.bind_eq_ok.mp h with ⟨p, hp, h2⟩
    rcases PResult.bind_eq_ok.mp h2 with ⟨q, hq, h3⟩
    simp only [PResult.ok.injEq, Prod.mk.injEq] at h3
    rw [← h3.1] at ha
    rcases List.mem_cons.mp ha with h' | hmem
    · subst h'
      exact hstep s p.1 p.2 hp
    · exact ih hq a hmem

theorem readLoop_error_kind {α : Type} {step : List Nat → PResult (α × List Nat)}
    (hstep : ∀ s e, step s = .error e → e = .Io) :
    ∀ {n : Nat} {s : List Nat} {e : Error}, readLoop step n s = .error e → e = .Io := by
  intro n
  induction n with
  | zero =>
    intro s e h
    simp [readLoop] at h
  | succ n ih =>
    intro s e h
    simp only [readLoop] at h
    rcases PResult.bind_eq_error.mp h with h1 | ⟨p, hp, h2⟩
    · exact hstep s e h1
    · rcases PResult.bind_eq_error.mp h2 with h3 | ⟨q, hq, h4⟩
      · exact ih h3
      · simp at h4

theorem readLoop_ne_panicked {α : Type} {step : List Nat → PResult (α × List Nat)}
    (hstep : ∀ s, step s ≠ .panicked) :
    ∀ {n : Nat} {s : List Nat}, readLoop step n s ≠ .panicked := by
  intro n
  induction n with
  | zero =>
    intro s h
    simp [readLoop] at h
  | succ n ih =>
    intro s h
    simp only [readLoop] at h
    rcases PResult.bind_eq_panicked.mp h with h1 | ⟨p, hp, h2⟩
    · exact hstep s h1
    · rcases PResult.bind_eq_panicked.mp h2 with h3 | ⟨q, hq, h4⟩
      · exact ih h3
      · simp at h4

theorem read_header_io {s : List Nat} (h : s.length < 24) :
    read_header s = .error .Io := by
  unfold read_header
  rw [readBytes_io h]
  rfl

theorem read_header_eq {s : List Nat} (h : 24 ≤ s.length) :
    read_header s =
      if leNat (s.take 2) ≠ 2 ∨ leNat ((s.drop 2).take 2) ≠ 3
      then .error .UnsupportedFormat
      else .ok (headerAt s, s.drop 24) := by
  have l24 : (s.take 24).length = 24 := by
    rw [List.length_take]
    omega
  have e0 : (s.take 24).take 2 = s.take 2 := by
    rw [List.take_take]
    norm_num
  have edrop : ∀ k, (s.take 24).drop k = (s.drop k).take (24 - k) := by
    intro k
    rw [List.drop_take]
  have eslice : ∀ lo k, lo + k ≤ 24 → ((s.take 24).drop lo).take k = (s.drop lo).take k := by
    intro lo k hk
    exact slice_take hk
  unfold read_header
  rw [readBytes_ok h]
  simp only [PResult.bind]
  rw [readU16_ok (by omega)]
  simp only [PResult.bind]
  rw [readU16_ok (by rw [List.length_drop]; omega)]
  simp only [PResult.bind]
  rw [List.drop_drop]
  rw [readU32_ok (by rw [List.length_drop]; omega)]
  simp only [PResult.bind]
  rw [List.drop_drop]
  rw [readU32_ok (by rw [List.length_drop]; omega)]
  simp only [PResult.bind]
  rw [List.drop_drop]
  rw [readU32_ok (by rw [List.length_drop]; omega)]
  simp only [PResult.bind]
  rw [List.drop_drop]
  rw [readU32_ok (by rw [List.length_drop]; omega)]
  simp only [PResult.bind]
  rw [List.drop_drop]
  rw [readU32_ok (by rw [List.length_drop]; omega)]
  simp only [PResult.bind]
  rw [e0, eslice 2 2 (by omega), eslice 4 4 (by omega), eslice 8 4 (by omega),
    eslice 12 4 (by omega), eslice 16 4 (by omega), eslice 20 4 (by omega)]
  rfl

theorem read_header_good {s : List Nat} (h : 24 ≤ s.length)
    (hid : leNat (s.take 2) = 2) (hver : leNat ((s.drop 2).take 2) = 3) :
    read_header s = .ok (headerAt s, s.drop 24) := by
  rw [read_header_eq h, if_neg (by simp [hid, hver])]

theorem read_header_bad {s : List Nat} (h : 24 ≤ s.length)
    (hbad : ¬(leNat (s.take 2) = 2 ∧ leNat ((s.drop 2).take 2) = 3)) :
    read_header s = .error .UnsupportedFormat := by
  rw [read_header_eq h, if_pos (by tauto)]

theorem read_string_entry_error {s : List Nat} {e : Error}
    (h : read_string_entry s = .error e) : e = .Io := by
  unfold read_string_entry at h
  rcases PResult.bind_eq_error.mp h with h1 | ⟨p, hp, h2⟩
  · exact readU32_error h1
  · rcases PResult.bind_eq_error.mp h2 with h3 | ⟨q, hq, h4⟩
    · exact readBytes_error h3
    · simp at h4

theorem read_string_entry_ne_panicked (s : List Nat) :
    read_string_entry s ≠ .panicked := by
  unfold read_string_entry
  intro h
  rcases PResult.bind_eq_panicked.mp h with h1 | ⟨p, hp, h2⟩
  · exact readU32_ne_panicked s h1
  · rcases PResult.bind_eq_panicked.mp h2 with h3 | ⟨q, hq, h4⟩
    · exact readBytes_ne_panicked _ _ h3
    · simp at h4

theorem read_string_entry_ok {s s' : List Nat} {str : List Nat}
    (h : read_string_entry s = .ok (str, s')) :
    ∃ len s1 bs, readU32 s = .ok (len, s1) ∧ readBytes len s1 = .ok (bs, s') ∧
      str = utf8_lossy bs := by
  unfold read_string_entry at h
  rcases PResult.bind_eq_ok.mp h with ⟨p, hp, h2⟩
  rcases PResult.bind_eq_ok.mp h2 with ⟨q, hq, h3⟩
  simp only [PResult.ok.injEq, Prod.mk.injEq] at h3
  exact ⟨p.1, p.2, q.1, hp, by rw [← h3.2]; exact hq, h3.1.symm⟩

theorem read_strings_ok {bytes : List Nat} {header : Header}
    {strs : List (List Nat)} {rest : List Nat}
    (h : read_strings bytes header = .ok (strs, rest)) :
    ∃ cnt s1, readU32 (bytes.drop header.string_table_start) = .ok (cnt, s1) ∧
      read_strings_loop cnt s1 = .ok (strs, rest) ∧ strs.length = cnt := by
  unfold read_strings at h
  rcases PResult.bind_eq_ok.mp h with ⟨p, hp, h2⟩
  refine ⟨p.1, p.2, hp, h2, ?_⟩
  unfold read_strings_loop at h2
  exact readLoop_length h2

theorem read_strings_error {bytes : List Nat} {header : Header} {e : Error}
    (h : read_strings bytes header = .error e) : e = .Io := by
  unfold read_strings at h
  rcases PResult.bind_eq_error.mp h with h1 | ⟨p, hp, h2⟩
  · exact readU32_error h1
  · unfold read_strings_loop at h2
    exact readLoop_error_kind (fun s e he => read_string_entry_error he) h2

theorem read_strings_ne_panicked (bytes : List Nat) (header : Header) :
    read_strings bytes header ≠ .panicked := by
  unfold read_strings
  intro h
  rcases PResult.bind_eq_panicked.mp h with h1 | ⟨p, hp, h2⟩
  · exact readU32_ne_panicked _ h1
  · unfold read_strings_loop at h2
    exact readLoop_ne_panicked (fun s => read_string_entry_ne_panicked s) h2

theorem read_entry_ok {strings : List (List Nat)} {s s' : List Nat} {en : Entry}
    (h : read_entry strings s = .ok (en, s')) :
    ∃ idx rest, readU32 s = .ok (idx, rest) ∧
      ∃ hlt : idx < strings.length, en.path = strings.get ⟨idx, hlt⟩ := by
  unfold read_entry at h
  rcases PResult.bind_eq_ok.mp h with ⟨p, hp, h2⟩
  refine ⟨p.1, p.2, hp, ?_⟩
  split at h2
  · simp at h2
  · split at h2
    · simp at h2
    · rename_i hnlt path hg
      have hlt : p.1 < strings.length := by
        rcases List.getElem?_eq_some_iff.mp hg with ⟨hl, _⟩
        exact hl
      refine ⟨hlt, ?_⟩
      rcases PResult.bind_eq_ok.mp h2 with ⟨q1, _, h3⟩
      rcases PResult.bind_eq_ok.mp h3 with ⟨q2, _, h4⟩
      rcases PResult.bind_eq_ok.mp h4 with ⟨q3, _, h5⟩
      rcases PResult.bind_eq_ok.mp h5 with ⟨q4, _, h6⟩
      rcases PResult.bind_eq_ok.mp h6 with ⟨q5, _, h7⟩
      rcases PResult.bind_eq_ok.mp h7 with ⟨q6, _, h8⟩
      simp only [PResult.ok.injEq, Prod.mk.injEq] at h8
      rw [← h8.1]
      have : strings[p.1] = path := (List.getElem?_eq_some_iff.mp hg).2
      rw [List.get_eq_getElem]
      exact this.symm

theorem read_entry_error_io {strings : List (List Nat)} {s : List Nat} {e : Error}
    (hinrange : ∀ idx rest, readU32 s = .ok (idx, rest) → idx < strings.length)
    (h : read_entry strings s = .error e) : e = .Io := by
  unfold read_entry at h
  rcases PResult.bind_eq_error.mp h with h1 | ⟨p, hp, h2⟩
  · exact readU32_error h1
  · have hlt : p.1 < strings.length := hinrange p.1 p.2 hp
    rw [if_neg (by omega)] at h2
    split at h2
    · simp at h2
    · rcases PResult.bind_eq_error.mp h2 with h3 | ⟨q1, _, h4⟩
      · exact readU32_error h3
      · rcases PResult.bind_eq_error.mp h4 with h5 | ⟨q2, _, h6⟩
        · exact readBytes_error h5
        · rcases PResult.bind_eq_error.mp h6 with h7 | ⟨q3, _, h8⟩
          · exact readU32_error h7
          · rcases PResult.bind_eq_error.mp h8 with h9 | ⟨q4, _, h10⟩
            · exact readU32_error h9
            · rcases PResult.bind_eq_error.mp h10 with h11 | ⟨q5, _, h12⟩
              · exact readU32_error h11
              · rcases PResult.bind_eq_error.mp h12 with h13 | ⟨q6, _, h14⟩
                · exact readU64_error h13
                · simp at h14

theorem read_entry_ne_panicked_of_inrange {strings : List (List Nat)} {s : List Nat}
    (hinrange : ∀ idx rest, readU32 s = .ok (idx, rest) → idx < strings.length) :
    read_entry strings s ≠ .panicked := by
  unfold read_entry
  intro h
  rcases PResult.bind_eq_panicked.mp h with h1 | ⟨p, hp, h2⟩
  · exact readU32_ne_panicked s h1
  · have hlt : p.1 < strings.length := hinrange p.1 p.2 hp
    rw [if_neg (by omega)] at h2
    split at h2
    · rename_i hnone
      rw [List.getElem?_eq_none_iff] at hnone
      omega
    · rcases PResult.bind_eq_panicked.mp h2 with h3 | ⟨q1, _, h4⟩
      · exact readU32_ne_panicked _ h3
      · rcases PResult.bind_eq_panicked.mp h4 with h5 | ⟨q2, _, h6⟩
        · exact readBytes_ne_panicked _ _ h5
        · rcases PResult.bind_eq_panicked.mp h6 with h7 | ⟨q3, _, h8⟩
          · exact readU32_ne_panicked _ h7
          · rcases PResult.bind_eq_panicked.mp h8 with h9 | ⟨q4, _, h10⟩
            · exact readU32_ne_panicked _ h9
            · rcases PResult.bind_eq_panicked.mp h10 with h11 | ⟨q5, _, h12⟩
              · exact readU32_ne_panicked _ h11
              · rcases PResult.bind_eq_panicked.mp h12 with h13 | ⟨q6, _, h14⟩
                · exact readU64_ne_panicked _ h13
                · simp at h14

theorem parse_header_ok {bytes : List Nat} {entries : List Entry}
    (h : parse_header bytes = .ok entries) :
    ∃ header s1 strs s2 s3,
      read_header bytes = .ok (header, s1) ∧
      read_strings bytes header = .ok (strs, s2) ∧
      read_entries bytes header strs = .ok (entries, s3) := by
  unfold parse_header at h
  rcases PResult.bind_eq_ok.mp h with ⟨hp, hh, h2⟩
  rcases PResult.bind_eq_ok.mp h2 with ⟨sp, hs, h3⟩
  rcases PResult.bind_eq_ok.mp h3 with ⟨ep, he, h4⟩
  simp only [PResult.ok.injEq] at h4
  exact ⟨hp.1, hp.2, sp.1, sp.2, ep.2, hh, hs, by rw [← h4]; exact he⟩

theorem parse_header_via {bytes s1 s2 : List Nat} {header : Header}
    {strs : List (List Nat)}
    (hh : read_header bytes = .ok (header, s1))
    (hs : read_strings bytes header = .ok (strs, s2)) :
    parse_header bytes = (read_entries bytes header strs).bind fun ep => .ok ep.1 := by
  unfold parse_header
  rw [hh]
  simp only [PResult.bind]
  rw [hs]

theorem parse_header_header_error {bytes : List Nat} {e : Error}
    (h : read_header bytes = .error e) : parse_header bytes = .error e := by
  unfold parse_header
  rw [h]
  rfl

theorem slice24_append (b c : List Nat) (lo k : Nat) (h : 24 ≤ b.length)
    (hk : lo + k ≤ 24) :
    ((b.take 24 ++ c).drop lo).take k = (b.drop lo).take k := by
  rw [List.drop_append_of_le_length (by rw [List.length_take]; omega),
      List.take_append_of_le_length (by rw [List.length_drop, List.length_take]; omega),
      slice_take hk]

theorem take24_append_take2 (b c : List Nat) (h : 24 ≤ b.length) :
    (b.take 24 ++ c).take 2 = b.take 2 := by
  rw [List.take_append_of_le_length (by rw [List.length_take]; omega), List.take_take]
  norm_num

theorem drop24_append (b c : List Nat) (h : 24 ≤ b.length) :
    (b.take 24 ++ c).drop 24 = c :=
  List.drop_left' (by rw [List.length_take]; omega)

theorem headerAt_take24_append (b c : List Nat) (h : 24 ≤ b.length) :
    headerAt (b.take 24 ++ c) = headerAt b := by
  unfold headerAt
  rw [take24_append_take2 b c h, slice24_append b c 2 2 h (by omega),
      slice24_append b c 4 4 h (by omega), slice24_append b c 8 4 h (by omega),
      slice24_append b c 12 4 h (by omega), slice24_append b c 16 4 h (by omega),
      slice24_append b c 20 4 h (by omega)]

theorem read_header_take24 (b c : List Nat) (h : 24 ≤ b.length) :
    (read_header (b.take 24 ++ c)).map Prod.fst = (read_header b).map Prod.fst := by
  have hlen : 24 ≤ (b.take 24 ++ c).length := by
    rw [List.length_append, List.length_take]
    omega
  rw [read_header_eq hlen, read_header_eq h, take24_append_take2 b c h,
      slice24_append b c 2 2 h (by omega)]
  by_cases hcond : leNat (b.take 2) ≠ 2 ∨ leNat ((b.drop 2).take 2) ≠ 3
  · rw [if_pos hcond, if_pos hcond]
  · rw [if_neg hcond, if_neg hcond]
    simp [PResult.map, headerAt_take24_append b c h]

/-- Claim C1, the code's behaviour at the spec's boundary: the source's
bounds check `path_index > strings.len()` admits an index equal to the pool
length, and the slice indexing then panics instead of returning
`InvalidStringIndex`; a strictly greater index does produce
`InvalidStringIndex` carrying the exact index.  Scenario C of the spec
(empty pool, one record with path index 0) therefore panics rather than
failing with the referential-integrity error carrying index 0. -/
theorem C1_boundary_index_panics :
    read_entry ([] : List (List Nat)) [0, 0, 0, 0] = .panicked ∧
    read_entry ([] : List (List Nat)) [1, 0, 0, 0] = .error (.InvalidStringIndex 1) ∧
    parse_header scenarioC_bytes = .panicked ∧
    parse_header scenarioC1_bytes = .error (.InvalidStringIndex 1) :=
  ⟨by decide, by decide, by decide, by decide⟩

/-- Claim C3, the code's behaviour on scenario C: `Reader::new` on that
stream panics, returning neither a valid reader nor one of the typed
failures, so construction is not total on all input streams. -/
theorem C3_new_panics_on_boundary_index :
    Reader.new scenarioC_bytes = .panicked := by decide

/-- Claim C8: parsing is deterministic — running the decode twice over equal
byte streams yields structurally identical outcomes (same record list or
same typed failure). -/
theorem C8_parse_deterministic (b1 b2 : List Nat) (h : b1 = b2) :
    Reader.new b1 = Reader.new b2 := by
  rw [h]

theorem C8_parse_deterministic_witness :
    Reader.new scenarioA_bytes = Reader.new scenarioA_bytes :=
  C8_parse_deterministic scenarioA_bytes scenarioA_bytes rfl

/-- Claim C10: when the header decodes with record_table_entry_count = 0 and
the string table decodes, the parse succeeds with an empty record list, and
the zero-iteration record loop reads no bytes at all (it succeeds on any
stream tail, returning it untouched). -/
theorem C10_zero_record_count (bytes s1 s2 : List Nat) (header : Header)
    (strs : List (List Nat))
    (hh : read_header bytes = .ok (header, s1))
    (hc : header.record_table_entry_count = 0)
    (hs : read_strings bytes header = .ok (strs, s2)) :
    parse_header bytes = .ok [] ∧
    ∀ t : List Nat, read_entries_loop strs 0 t = .ok ([], t) := by
  refine ⟨?_, fun t => rfl⟩
  rw [parse_header_via hh hs]
  unfold read_entries read_entries_loop
  rw [hc]
  rfl

theorem C10_zero_record_count_witness : parse_header zeroCount_bytes = .ok [] :=
  (C10_zero_record_count zeroCount_bytes [0, 0, 0, 0] [] zeroCount_header []
    (by decide) (by decide) (by decide)).1

/-- Claim C2: header decoding fails with UnsupportedFormat exactly when the
stream holds at least the 24 header bytes and its first four bytes do not
decode to id 2, version 3 — so a stream whose first four bytes decode to
(2, 3) never fails with format mismatch, whatever follows; the outcome is
computed from the first 24 bytes alone (bytes past 24 are never read); and a
header failure is the whole parse's failure, before any table decoding. -/
theorem C2_format_mismatch_iff (b c : List Nat) :
    (read_header b = .error .UnsupportedFormat ↔
      24 ≤ b.length ∧ ¬(leNat (b.take 2) = 2 ∧ leNat ((b.drop 2).take 2) = 3)) ∧
    (24 ≤ b.length →
      (read_header (b.take 24 ++ c)).map Prod.fst = (read_header b).map Prod.fst) ∧
    (∀ e, read_header b = .error e → parse_header b = .error e) := by
  refine ⟨⟨?_, ?_⟩, fun h => read_header_take24 b c h,
    fun e h => parse_header_header_error h⟩
  · intro h
    by_cases hlen : 24 ≤ b.length
    · refine ⟨hlen, fun hgood => ?_⟩
      rw [read_header_good hlen hgood.1 hgood.2] at h
      simp at h
    · rw [read_header_io (by omega)] at h
      simp at h
  · rintro ⟨hlen, hbad⟩
    exact read_header_bad hlen hbad

/-- Claim C6: on a stream with at least 24 bytes whose magic and version
check out, the header decoder consumes exactly the 24 header bytes (the
returned tail is the stream from offset 24, and any bytes past offset 24 can
be replaced without changing the decoded header), and the six offset, size
and count fields are returned verbatim as the little-endian slices at
offsets 4, 8, 12, 16 and 20, with no derived fields. -/
theorem C6_header_fields_verbatim (b c : List Nat) (h : 24 ≤ b.length)
    (hid : leNat (b.take 2) = 2) (hver : leNat ((b.drop 2).take 2) = 3) :
    read_header b = .ok (headerAt b, b.drop 24) ∧
    read_header (b.take 24 ++ c) = .ok (headerAt b, c) ∧
    headerAt b =
      { id := leNat (b.take 2), version := leNat ((b.drop 2).take 2),
        record_table_start := leNat ((b.drop 4).take 4),
        record_table_size := leNat ((b.drop 8).take 4),
        record_table_entry_count := leNat ((b.drop 12).take 4),
        string_table_start := leNat ((b.drop 16).take 4),
        string_table_size := leNat ((b.drop 20).take 4) } := by
  have hlen : 24 ≤ (b.take 24 ++ c).length := by
    rw [List.length_append, List.length_take]
    omega
  refine ⟨read_header_good h hid hver, ?_, rfl⟩
  have hid2 : leNat ((b.take 24 ++ c).take 2) = 2 := by
    rw [take24_append_take2 b c h]
    exact hid
  have hver2 : leNat (((b.take 24 ++ c).drop 2).take 2) = 3 := by
    rw [slice24_append b c 2 2 h (by omega)]
    exact hver
  rw [read_header_good hlen hid2 hver2, drop24_append b c h, headerAt_take24_append b c h]

theorem C6_header_fields_verbatim_witness :
    read_header scenarioA_bytes = .ok (headerAt scenarioA_bytes, scenarioA_bytes.drop 24) :=
  (C6_header_fields_verbatim scenarioA_bytes [] (by decide) (by decide) (by decide)).1

/-- Claim C5: the string-table decoder can only fail with the I/O error of a
short read (never with a format or index error, and it never panics: lossy
UTF-8 decoding is total); on success it reads the u32 count at the header's
string-table offset and returns exactly that many strings; each entry is a
u32 byte length followed by that many raw bytes decoded lossily; and the
loop splits positionally, so the pool lists the entries in on-disk order. -/
theorem C5_string_table_shape (bytes : List Nat) (header : Header) :
    (∀ e, read_strings bytes header = .error e → e = .Io) ∧
    read_strings bytes header ≠ .panicked ∧
    (∀ strs rest, read_strings bytes header = .ok (strs, rest) →
      ∃ cnt s1, readU32 (bytes.drop header.string_table_start) = .ok (cnt, s1) ∧
        read_strings_loop cnt s1 = .ok (strs, rest) ∧ strs.length = cnt) ∧
    (∀ s str s', read_string_entry s = .ok (str, s') →
      ∃ len s1 bs, readU32 s = .ok (len, s1) ∧ readBytes len s1 = .ok (bs, s') ∧
        str = utf8_lossy bs) ∧
    (∀ m n s strs s', read_strings_loop (m + n) s = .ok (strs, s') →
      ∃ p1 sm p2, read_strings_loop m s = .ok (p1, sm) ∧
        read_strings_loop n sm = .ok (p2, s') ∧ strs = p1 ++ p2) := by
  refine ⟨fun e h => read_strings_error h, read_strings_ne_panicked bytes header,
    fun strs rest h => read_strings_ok h,
    fun s str s' h => read_string_entry_ok h,
    fun m n s strs s' h => ?_⟩
  unfold read_strings_loop at h ⊢
  exact readLoop_split h

/-- Claim C4: a successful parse returns exactly record_table_entry_count
records; every returned record's path is a string-pool entry, looked up at
the u32 path index its record encodes (which on success is always strictly
below the pool length); and the record loop splits positionally, so the
record list is in on-disk table order, never reordered. -/
theorem C4_record_table_shape (bytes s1 s2 : List Nat) (header : Header)
    (strs : List (List Nat)) (entries : List Entry)
    (hh : read_header bytes = .ok (header, s1))
    (hs : read_strings bytes header = .ok (strs, s2))
    (hp : parse_header bytes = .ok entries) :
    entries.length = header.record_table_entry_count ∧
    (∀ en ∈ entries, ∃ idx, ∃ hlt : idx < strs.length, en.path = strs.get ⟨idx, hlt⟩) ∧
    (∀ s en s', read_entry strs s = .ok (en, s') →
      ∃ idx rest, readU32 s = .ok (idx, rest) ∧
        ∃ hlt : idx < strs.length, en.path = strs.get ⟨idx, hlt⟩) ∧
    (∀ m n s es s', read_entries_loop strs (m + n) s = .ok (es, s') →
      ∃ es1 sm es2, read_entries_loop strs m s = .ok (es1, sm) ∧
        read_entries_loop strs n sm = .ok (es2, s') ∧ es = es1 ++ es2) := by
  rcases parse_header_ok hp with ⟨header', s1', strs', s2', s3, hh', hs', he⟩
  rw [hh] at hh'
  simp only [PResult.ok.injEq, Prod.mk.injEq] at hh'
  rw [← hh'.1] at hs' he
  rw [hs] at hs'
  simp only [PResult.ok.injEq, Prod.mk.injEq] at hs'
  rw [← hs'.1] at he
  unfold read_entries read_entries_loop at he
  refine ⟨readLoop_length he, ?_, fun s en s' h => read_entry_ok h,
    fun m n s es s' h => ?_⟩
  · refine readLoop_mem (fun s en s' h => ?_) he
    rcases read_entry_ok h with ⟨idx, rest, hu, hlt, hpath⟩
    exact ⟨idx, hlt, hpath⟩
  · unfold read_entries_loop at h
    exact readLoop_split h

theorem C4_record_table_shape_witness :
    [scenarioA_entry].length = scenarioA_header.record_table_entry_count :=
  (C4_record_table_shape scenarioA_bytes (scenarioA_bytes.drop 24) (scenarioA_bytes.drop 37)
    scenarioA_header [[104, 101, 108, 108, 111]] [scenarioA_entry]
    (by decide) (by decide) (by decide)).1

/-- Claim C7 is false as stated: a stream whose header claims 5 records but
which ends after 2 complete records need not fail with the I/O failure — if
the leftover fragment's first four bytes decode an out-of-range path index,
the bounds check fails first and the parse returns InvalidStringIndex with
that index (scenario D2, index 7 over a one-string pool); a fragment
decoding the boundary index even panics (scenario D3).  The loop equations
show that in both streams exactly 2 complete records decode before the
fragment. -/
theorem C7_truncated_not_always_io :
    read_entries_loop [[]] 2 (scenarioD2_bytes.drop 32) =
      .ok ([zero_entry, zero_entry], [7, 0, 0, 0]) ∧
    parse_header scenarioD2_bytes = .error (.InvalidStringIndex 7) ∧
    parse_header scenarioD2_bytes ≠ .error .Io ∧
    read_entries_loop [[]] 2 (scenarioD3_bytes.drop 32) =
      .ok ([zero_entry, zero_entry], [1, 0, 0, 0]) ∧
    parse_header scenarioD3_bytes = .panicked :=
  ⟨by decide, by decide, by decide, by decide, by decide⟩

/-- Claim C7 as amended: when the header's record count exceeds the records
actually present — k records decode, k is below the claimed count, and the
next record's decode cannot succeed — and the leftover bytes do not decode
an out-of-range path index as their first four bytes, the whole parse fails
with the I/O failure (the kind wrapping the underlying read error) and no
record list is returned.  The failure kind is derived, not assumed: the only
failures a record decode with an in-range index can produce are the I/O
errors of its short reads. -/
theorem C7_truncated_record_table_io (bytes s1 s2 sk : List Nat) (header : Header)
    (strs : List (List Nat)) (k : Nat) (es : List Entry)
    (hh : read_header bytes = .ok (header, s1))
    (hs : read_strings bytes header = .ok (strs, s2))
    (hk : k < header.record_table_entry_count)
    (hpart : read_entries_loop strs k (bytes.drop header.record_table_start) = .ok (es, sk))
    (hnotok : ∀ en s', read_entry strs sk ≠ .ok (en, s'))
    (hinrange : ∀ idx rest, readU32 sk = .ok (idx, rest) → idx < strs.length) :
    parse_header bytes = .error .Io := by
  have hfail : read_entry strs sk = .error .Io := by
    cases hres : read_entry strs sk with
    | ok p => exact absurd hres (hnotok p.1 p.2)
    | error e =>
      have he : e = .Io := read_entry_error_io hinrange hres
      rw [he]
    | panicked => exact absurd hres (read_entry_ne_panicked_of_inrange hinrange)
  rw [parse_header_via hh hs]
  have hent : read_entries bytes header strs = .error .Io := by
    unfold read_entries read_entries_loop
    unfold read_entries_loop at hpart
    obtain ⟨m, hm⟩ : ∃ m, header.record_table_entry_count - k = m + 1 :=
      ⟨header.record_table_entry_count - k - 1, by omega⟩
    have hsplit : header.record_table_entry_count = k + (m + 1) := by omega
    rw [hsplit]
    refine readLoop_error_later hpart ?_
    simp only [readLoop]
    rw [hfail]
    rfl
  rw [hent]
  rfl

theorem C7_truncated_record_table_io_witness : parse_header scenarioD_bytes = .error .Io :=
  C7_truncated_record_table_io scenarioD_bytes (scenarioD_bytes.drop 24)
    (scenarioD_bytes.drop 32) [] scenarioD_header [[]] 2 [zero_entry, zero_entry]
    (by decide) (by decide) (by decide) (by decide)
    (fun en s' h => by
      have hre : read_entry ([[]] : List (List Nat)) [] = .error .Io := by decide
      rw [hre] at h
      simp at h)
    (fun idx rest h => by
      have hru : readU32 ([] : List Nat) = .error .Io := by decide
      rw [hru] at h
      simp at h)

/-- Claim C9 is false as stated: two streams identical except in the
record_table_size bytes (header offsets 8-11) can parse to different
outcomes, because the string-table offset may point back into the header, in
which case those bytes are re-read as string-table data.  Here the first
stream parses to zero records while the second fails with the I/O error. -/
theorem C9_size_bytes_influence_result :
    c9denB_bytes = c9denA_bytes.take 8 ++ [255, 255, 255, 255] ++ c9denA_bytes.drop 12 ∧
    c9denA_bytes.length = c9denB_bytes.length ∧
    parse_header c9denA_bytes = .ok [] ∧
    parse_header c9denB_bytes = .error .Io :=
  ⟨by decide, by decide, by decide, by decide⟩

/-- Claim C9 as amended: for two streams of equal length that agree at every
byte position outside the record_table_size field (offsets 8-11) and the
string_table_size field (offsets 20-23), and whose decoded header places both
the string table and the record table at offset 24 or later (so the two size
fields are not re-read as table data), the parses produce identical
outcomes — the same record list or the same failure. -/
theorem C9_amended_size_fields_ignored (b1 b2 s1 : List Nat) (h1 : Header)
    (hlen : b1.length = b2.length)
    (hagree : ∀ i, i < b1.length → i < 8 ∨ (11 < i ∧ i < 20) ∨ 23 < i → b1[i]? = b2[i]?)
    (hh1 : read_header b1 = .ok (h1, s1))
    (hsts : 24 ≤ h1.string_table_start)
    (hrts : 24 ≤ h1.record_table_start) :
    parse_header b1 = parse_header b2 := by
  have hag : ∀ i, (i < 8 ∨ (11 < i ∧ i < 20) ∨ 23 < i) → b1[i]? = b2[i]? := by
    intro i hi
    by_cases hl : i < b1.length
    · exact hagree i hl hi
    · rw [List.getElem?_eq_none (by omega), List.getElem?_eq_none (by omega)]
  have h24 : 24 ≤ b1.length := by
    by_contra hc
    rw [read_header_io (by omega)] at hh1
    simp at hh1
  have h24' : 24 ≤ b2.length := by omega
  have eq_slice : ∀ lo k : Nat,
      (∀ j, j < k → lo + j < 8 ∨ (11 < lo + j ∧ lo + j < 20) ∨ 23 < lo + j) →
      (b1.drop lo).take k = (b2.drop lo).take k := by
    intro lo k hcond
    apply List.ext_getElem?
    intro n
    by_cases hn : n < k
    · rw [List.getElem?_take_of_lt hn, List.getElem?_take_of_lt hn,
          List.getElem?_drop, List.getElem?_drop]
      exact hag (lo + n) (hcond n hn)
    · rw [List.getElem?_take_eq_none (by omega), List.getElem?_take_eq_none (by omega)]
  have take2 : b1.take 2 = b2.take 2 := by
    have h := eq_slice 0 2 (by intro j hj; omega)
    rwa [List.drop_zero, List.drop_zero] at h
  have hslice22 : (b1.drop 2).take 2 = (b2.drop 2).take 2 :=
    eq_slice 2 2 (by intro j hj; omega)
  have hslice44 : (b1.drop 4).take 4 = (b2.drop 4).take 4 :=
    eq_slice 4 4 (by intro j hj; omega)
  have hslice124 : (b1.drop 12).take 4 = (b2.drop 12).take 4 :=
    eq_slice 12 4 (by intro j hj; omega)
  have hslice164 : (b1.drop 16).take 4 = (b2.drop 16).take 4 :=
    eq_slice 16 4 (by intro j hj; omega)
  have dropEq : ∀ t, 24 ≤ t → b1.drop t = b2.drop t := by
    intro t ht
    apply List.ext_getElem?
    intro n
    rw [List.getElem?_drop, List.getElem?_drop]
    exact hag (t + n) (by omega)
  rw [read_header_eq h24] at hh1
  by_cases hcond : leNat (b1.take 2) ≠ 2 ∨ leNat ((b1.drop 2).take 2) ≠ 3
  · rw [if_pos hcond] at hh1
    simp at hh1
  · rw [if_neg hcond] at hh1
    simp only [PResult.ok.injEq, Prod.mk.injEq] at hh1
    obtain ⟨hh1a, hh1b⟩ := hh1
    subst hh1a
    have hb1 : read_header b1 = .ok (headerAt b1, b1.drop 24) := by
      rw [read_header_eq h24, if_neg hcond]
    have hcond2 : ¬(leNat (b2.take 2) ≠ 2 ∨ leNat ((b2.drop 2).take 2) ≠ 3) := by
      rw [← take2, ← hslice22]
      exact hcond
    have hb2 : read_header b2 = .ok (headerAt b2, b2.drop 24) := by
      rw [read_header_eq h24', if_neg hcond2]
    have hsts2 : (headerAt b2).string_table_start = (headerAt b1).string_table_start := by
      simp only [headerAt]
      rw [hslice164]
    have hrts2 : (headerAt b2).record_table_start = (headerAt b1).record_table_start := by
      simp only [headerAt]
      rw [hslice44]
    have hcnt2 : (headerAt b2).record_table_entry_count =
        (headerAt b1).record_table_entry_count := by
      simp only [headerAt]
      rw [hslice124]
    have hstr : read_strings b1 (headerAt b1) = read_strings b2 (headerAt b2) := by
      unfold read_strings
      rw [hsts2, dropEq (headerAt b1).string_table_start hsts]
    have hent : ∀ strs, read_entries b1 (headerAt b1) strs =
        read_entries b2 (headerAt b2) strs := by
      intro strs
      unfold read_entries
      rw [hcnt2, hrts2, dropEq (headerAt b1).record_table_start hrts]
    unfold parse_header
    rw [hb1, hb2]
    simp only [PResult.bind]
    rw [← hstr]
    congr 1
    funext sp
    rw [hent sp.1]

theorem C9_amended_witness : parse_header c9okA_bytes = parse_header c9okB_bytes :=
  C9_amended_size_fields_ignored c9okA_bytes c9okB_bytes (c9okA_bytes.drop 24) c9okA_header
    (by decide) (by decide) (by decide) (by decide) (by decide)

end Grimarz
